import Mathlib

/-!
# Verification of the navigation / data-orchestration engine

Shallow embedding of the `data-router` example routes
(`src/examples/data-router/src/routes.tsx`) and of the core orchestration
engine described by the design document (navigation state machine,
deferred-value resolver, fetcher registry, revalidation coordinator and
error-boundary resolver).  The example's `todosAction` and `todoLoader`
are translated directly from the source; the core engine, whose code is
not part of this excerpt, is modelled from the design document.
-/

namespace DataRouter

/-! ## The todos example (translated from `routes.tsx`) -/

/-- A value stored under a key of a submitted `FormData` payload:
`FormData.get` returns a string, a `File`, or `null` (modelled by the
surrounding `Option`). -/
inductive FormValue
  | str (s : String)
  | file
deriving DecidableEq, Repr

/-- A submitted form payload: a lookup from field names. -/
abbrev FormData := String → Option FormValue

/-- The todo store: an association of todo ids to todo texts.
Modelled from the spec: the backing `todos` module (`addTodo`,
`deleteTodo`, `getTodos`) is not part of the excerpt; the spec treats it
as external todo storage keyed by id. -/
abbrev Todos := List (String × String)

/-- Modelled from the spec: `addTodo` stores a new todo text under a
fresh id. -/
def addTodo (todos : Todos) (freshId : String) (todo : String) : Todos :=
  todos ++ [(freshId, todo)]

/-- Modelled from the spec: `deleteTodo` removes the todo stored under
the given id. -/
def deleteTodo (todos : Todos) (id : String) : Todos :=
  todos.filter (fun p => p.1 ≠ id)

/-- Modelled from the spec: `getTodos` returns the current store. -/
def getTodos (todos : Todos) : Todos := todos

/-- Result of `todosAction`: either the plain data value with `ok` set
to true, or a `Response` carrying a status code and a `Location`
header. -/
inductive ActionResult
  | okTrue
  | redirectResp (status : Nat) (location : String)
deriving DecidableEq, Repr

/-- `todosAction` from `routes.tsx`: on `action=delete` with a string
`todoId` it deletes that todo and returns `{ ok: true }`; otherwise it
falls through to the addition branch, adding the `todo` field when it is
a string, and returns a 302 redirect to `/todos`.  `freshId` stands for
the id the backing store assigns to an added todo. -/
def todosAction (fd : FormData) (todos : Todos) (freshId : String) :
    Todos × ActionResult :=
  let addBranch : Todos × ActionResult :=
    match fd "todo" with
    | some (.str todo) => (addTodo todos freshId todo, .redirectResp 302 "/todos")
    | _ => (todos, .redirectResp 302 "/todos")
  if fd "action" = some (.str "delete") then
    match fd "todoId" with
    | some (.str id) => (deleteTodo todos id, .okTrue)
    | _ => addBranch
  else addBranch

/-- JavaScript truthiness of a `string | undefined` value: `undefined`
and the empty string are falsy. -/
def jsTruthy : Option String → Bool
  | none => false
  | some s => s ≠ ""

/-- The error message thrown when no todo is stored under `id`. -/
def todoNotFoundMsg (id : String) : String :=
  "Uh oh, I couldn't find a todo with id \"" ++ id ++ "\""

/-- `todoLoader` from `routes.tsx`: `if (!params.id) throw`, then
`todos[params.id]`, `if (!todo) throw`, else return the todo.  Both
guards are JavaScript truthiness checks (`jsTruthy`). -/
def todoLoader (idParam : Option String) (todos : Todos) :
    Except String String :=
  if jsTruthy idParam then
    let id := idParam.getD ""
    let todo := todos.lookup id
    if jsTruthy todo then .ok (todo.getD "")
    else .error (todoNotFoundMsg id)
  else .error "Expected params.id"

/-! ## DeferredResolver (modelled from the spec, design document §4.2) -/

/-- The status of a single lazy deferred entry: it transitions exactly
once from `pending` to a terminal state. -/
inductive EntryStatus
  | pending
  | resolvedWith (v : String)
  | rejectedWith (e : String)
deriving DecidableEq, Repr

/-- A `DeferredEnvelope`: already-resolved critical values, plus lazy
entries each carrying its own status. -/
structure DeferredEnvelope where
  criticalValues : List (String × String)
  lazyEntries : List (String × EntryStatus)
deriving DecidableEq, Repr

/-- Modelled from the spec: `wrap(criticalValues, lazyPromises)` of the
DeferredResolver returns a `DeferredEnvelope` synchronously once the
critical values are in hand; every lazy entry starts `pending` — the
resolver never waits on a lazy promise before returning. -/
def wrap (criticalValues : List (String × String)) (lazyNames : List String) :
    DeferredEnvelope :=
  { criticalValues := criticalValues
    lazyEntries := lazyNames.map (fun n => (n, EntryStatus.pending)) }

/-- Settlement of one lazy promise: resolution with a value, or
rejection with an error. -/
inductive Settlement
  | resolveWith (v : String)
  | rejectWith (e : String)
deriving DecidableEq, Repr

/-- The terminal status a settlement produces. -/
def Settlement.toStatus : Settlement → EntryStatus
  | .resolveWith v => .resolvedWith v
  | .rejectWith e => .rejectedWith e

/-- The per-entry update applied when the lazy promise named `name`
settles: the matching entry transitions out of `pending`; a terminal
entry is left unchanged; entries under other names are untouched. -/
def settleFun (name : String) (st : Settlement) (p : String × EntryStatus) :
    String × EntryStatus :=
  if p.1 = name then
    if p.2 = EntryStatus.pending then (p.1, st.toStatus) else p
  else p

/-- Modelled from the spec: when the lazy promise named `name` settles,
the resolver updates exactly the corresponding entry; an entry that is
already terminal is left unchanged (a `DeferredEntry` transitions at
most once). -/
def settleEntry (env : DeferredEnvelope) (name : String) (st : Settlement) :
    DeferredEnvelope :=
  { env with lazyEntries := env.lazyEntries.map (settleFun name st) }

/-- A consumer's view of one entry's current state. -/
def entryStatus (env : DeferredEnvelope) (name : String) : Option EntryStatus :=
  env.lazyEntries.lookup name

/-! ## ErrorResolver (modelled from the spec, design document §4.5) -/

/-- One matched route segment: its id and whether it declares
error-boundary capability.  A `RouteMatch` is a list of segments,
outermost first. -/
structure Segment where
  id : Nat
  hasBoundary : Bool
deriving DecidableEq, Repr

/-- Modelled from the spec: the ErrorResolver walks from the origin
segment (given by its index in the chain, outermost first) toward the
root, selecting the nearest segment, origin included, that declares
boundary capability; `none` stands for the implicit root boundary when
no segment in the walk declares it. -/
def resolveBoundary (chain : List Segment) : Nat → Option Nat
  | 0 =>
    match chain.get? 0 with
    | some s => if s.hasBoundary then some s.id else none
    | none => none
  | n + 1 =>
    match chain.get? (n + 1) with
    | some s => if s.hasBoundary then some s.id else resolveBoundary chain n
    | none => resolveBoundary chain n

/-! ## The Navigator / FetcherRegistry / RevalidationCoordinator machine
(modelled from the spec, design document §4.1, §4.3, §4.4, §5) -/

/-- Phase of the main navigation state machine. -/
inductive NavPhase
  | idle
  | submitting
  | loading
deriving DecidableEq, Repr

/-- Kind of a navigation intent. -/
inductive IntentKind
  | load
  | submit
deriving DecidableEq, Repr

/-- A navigation intent: target location plus its kind. -/
structure Intent where
  target : String
  kind : IntentKind
deriving DecidableEq, Repr

/-- The settled result of an `AsyncTask` (loader or action): a value, a
typed failure, or a redirect instruction. -/
inductive TaskResult
  | ok (v : Nat)
  | err (e : Nat)
  | redirectTo (loc : String)
deriving DecidableEq, Repr

/-- Insert or replace the value stored under a key. -/
def upsert (l : List (Nat × Nat)) (k v : Nat) : List (Nat × Nat) :=
  (k, v) :: l.filter (fun p => p.1 ≠ k)

/-- Insert or replace a fetcher's stored result. -/
def upsertFetcher (l : List (String × TaskResult)) (k : String)
    (r : TaskResult) : List (String × TaskResult) :=
  (k, r) :: l.filter (fun p => p.1 ≠ k)

/-- The live engine state.  `gen` is the generation counter of the main
navigation; `chain`/`location` are the committed matches and location;
`pendingChain`/`pendingTarget`/`pendingLoaders` describe the in-flight
navigation of the current generation.  `loaderRuns` logs every loader
invocation (by segment id, oldest first), `phaseLog` logs every phase
transition entered, and `emittedIntents` logs redirect results turned
into new navigation intents; the logs let theorems speak about what
happened over time. -/
structure EngineState where
  gen : Nat
  phase : NavPhase
  location : String
  chain : List Segment
  pendingChain : List Segment
  pendingTarget : String
  pendingLoaders : List Nat
  navData : List (Nat × Nat)
  deferredData : List (String × TaskResult)
  errors : List (Option Nat × Nat)
  fetcherData : List (String × TaskResult)
  revalidating : Bool
  loaderRuns : List Nat
  phaseLog : List NavPhase
  emittedIntents : List Intent
deriving DecidableEq, Repr

/-- An event consumed by the engine.  Settlement events carry the
generation `g` of the navigation that started the task, so the engine
can discard stale settlements. -/
inductive Event
  | navigate (intent : Intent) (matched : List Segment)
  | actionSettled (g : Nat) (r : TaskResult)
  | loaderSettled (g : Nat) (seg : Nat) (r : TaskResult)
  | deferredSettled (g : Nat) (name : String) (r : TaskResult)
  | fetcherActionSettled (fid : String) (r : TaskResult)
deriving DecidableEq, Repr

/-- The generation a settlement event belongs to; `none` for events that
are not tied to a main-navigation generation. -/
def Event.genOf : Event → Option Nat
  | .actionSettled g _ => some g
  | .loaderSettled g _ _ => some g
  | .deferredSettled g _ _ => some g
  | _ => none

/-- Modelled from the spec: one step of the engine.

* `navigate` supersedes any in-flight navigation: the generation counter
  is bumped, pending tasks of the old generation are cancelled, and the
  machine enters `submitting` (submit intents run the deepest segment's
  action first) or `loading` (load intents start every matched segment's
  loader concurrently).
* `actionSettled`/`loaderSettled`/`deferredSettled` of a superseded
  generation leave the state completely unchanged (stale-result
  suppression).  A current-generation action failure is routed through
  the ErrorResolver at the deepest segment and ends the navigation
  without running loaders; a success starts the loader phase; a redirect
  is turned into a new navigation intent.  A current-generation loader
  failure is attached at the failing segment's own boundary and does
  not cancel sibling loaders; once the last loader settles, the new
  location and matches commit and the phase returns to `idle`.
* `fetcherActionSettled` stores the fetcher's result; a success
  triggers the RevalidationCoordinator, which re-invokes the loaders of
  the currently active segments (deduplicating any segment whose loader
  is already pending) under a lightweight `revalidating` flag without
  touching the main navigation's phase; a redirect skips revalidation
  and is turned into a new navigation intent. -/
def step (s : EngineState) (e : Event) : EngineState :=
  match e with
  | .navigate intent matched =>
    match intent.kind with
    | .submit =>
      { s with
        gen := s.gen + 1
        phase := .submitting
        pendingChain := matched
        pendingTarget := intent.target
        pendingLoaders := []
        phaseLog := s.phaseLog ++ [.submitting] }
    | .load =>
      { s with
        gen := s.gen + 1
        phase := .loading
        pendingChain := matched
        pendingTarget := intent.target
        pendingLoaders := matched.map Segment.id
        loaderRuns := s.loaderRuns ++ matched.map Segment.id
        phaseLog := s.phaseLog ++ [.loading] }
  | .actionSettled g r =>
    if g = s.gen then
      match r with
      | .ok _ =>
        { s with
          phase := .loading
          pendingLoaders := s.pendingChain.map Segment.id
          loaderRuns := s.loaderRuns ++ s.pendingChain.map Segment.id
          phaseLog := s.phaseLog ++ [.loading] }
      | .err e2 =>
        { s with
          phase := .idle
          pendingLoaders := []
          errors := s.errors ++
            [(resolveBoundary s.pendingChain (s.pendingChain.length - 1), e2)]
          phaseLog := s.phaseLog ++ [.idle] }
      | .redirectTo loc =>
        { s with
          phase := .idle
          pendingLoaders := []
          emittedIntents := s.emittedIntents ++ [⟨loc, .load⟩]
          phaseLog := s.phaseLog ++ [.idle] }
    else s
  | .loaderSettled g seg r =>
    if g = s.gen then
      if seg ∈ s.pendingLoaders then
        let rest := s.pendingLoaders.erase seg
        let s2 : EngineState :=
          match r with
          | .ok v => { s with navData := upsert s.navData seg v }
          | .err e2 =>
            { s with
              errors := s.errors ++
                [(resolveBoundary s.pendingChain
                    ((s.pendingChain.map Segment.id).indexOf seg), e2)] }
          | .redirectTo loc =>
            { s with emittedIntents := s.emittedIntents ++ [⟨loc, .load⟩] }
        if rest.isEmpty then
          { s2 with
            pendingLoaders := []
            phase := .idle
            location := s.pendingTarget
            chain := s.pendingChain
            phaseLog := s2.phaseLog ++ [.idle] }
        else { s2 with pendingLoaders := rest }
      else s
    else s
  | .deferredSettled g name r =>
    if g = s.gen then
      { s with deferredData := s.deferredData ++ [(name, r)] }
    else s
  | .fetcherActionSettled fid r =>
    match r with
    | .ok _ =>
      { s with
        fetcherData := upsertFetcher s.fetcherData fid r
        revalidating := true
        loaderRuns := s.loaderRuns ++
          ((s.chain.map Segment.id).filter (fun i => i ∉ s.pendingLoaders)) }
    | .err _ =>
      { s with fetcherData := upsertFetcher s.fetcherData fid r }
    | .redirectTo loc =>
      { s with
        fetcherData := upsertFetcher s.fetcherData fid r
        emittedIntents := s.emittedIntents ++ [⟨loc, .load⟩] }

/-- Run the engine over a list of events, oldest first. -/
def run (s : EngineState) (evs : List Event) : EngineState :=
  evs.foldl step s

/-- A quiescent engine state used as a concrete starting point. -/
def initState : EngineState :=
  { gen := 0
    phase := .idle
    location := "/"
    chain := []
    pendingChain := []
    pendingTarget := "/"
    pendingLoaders := []
    navData := []
    deferredData := []
    errors := []
    fetcherData := []
    revalidating := false
    loaderRuns := []
    phaseLog := []
    emittedIntents := [] }

theorem lookup_cons_self {α β : Type} [BEq α] [LawfulBEq α] (k : α) (v : β)
    (l : List (α × β)) : ((k, v) :: l).lookup k = some v := by
  simp [List.lookup]

theorem lookup_cons_ne {α β : Type} [BEq α] [LawfulBEq α] {m k : α} (v : β)
    (l : List (α × β)) (h : ¬ m = k) :
    ((k, v) :: l).lookup m = l.lookup m := by
  have hb : (m == k) = false := beq_eq_false_iff_ne.mpr h
  simp [List.lookup, hb]

theorem settleFun_fst (name : String) (st : Settlement) (p : String × EntryStatus) :
    (settleFun name st p).1 = p.1 := by
  unfold settleFun
  by_cases h1 : p.1 = name
  · by_cases h2 : p.2 = EntryStatus.pending <;> simp [h1, h2]
  · simp [h1]

theorem lookup_map_settleFun_other (l : List (String × EntryStatus))
    (name m : String) (st : Settlement) (hm : m ≠ name) :
    (l.map (settleFun name st)).lookup m = l.lookup m := by
  induction l with
  | nil => rfl
  | cons p rest ih =>
    obtain ⟨k, v⟩ := p
    rw [List.map_cons]
    by_cases hmk : m = k
    · subst hmk
      have hk : ¬ m = name := hm
      have hfun : settleFun name st (m, v) = (m, v) := by
        simp [settleFun, fun h => hk h]
      rw [hfun, lookup_cons_self, lookup_cons_self]
    · have hkey : ¬ m = (settleFun name st (k, v)).1 := by
        rw [settleFun_fst]
        exact hmk
      rw [show settleFun name st (k, v) =
            ((settleFun name st (k, v)).1, (settleFun name st (k, v)).2) from rfl]
      rw [lookup_cons_ne _ _ hkey, lookup_cons_ne _ _ hmk, ih]

theorem lookup_map_settleFun_self (l : List (String × EntryStatus))
    (name : String) (st : Settlement)
    (hpend : l.lookup name = some EntryStatus.pending) :
    (l.map (settleFun name st)).lookup name = some st.toStatus := by
  induction l with
  | nil => simp [List.lookup] at hpend
  | cons p rest ih =>
    obtain ⟨k, v⟩ := p
    rw [List.map_cons]
    by_cases hnk : name = k
    · subst hnk
      rw [lookup_cons_self] at hpend
      have hv : v = EntryStatus.pending := by
        injection hpend
      subst hv
      have hfun : settleFun name st (name, EntryStatus.pending) =
          (name, st.toStatus) := by
        simp [settleFun]
      rw [hfun, lookup_cons_self]
    · rw [lookup_cons_ne _ _ hnk] at hpend
      have hkey : ¬ name = (settleFun name st (k, v)).1 := by
        rw [settleFun_fst]
        exact hnk
      rw [show settleFun name st (k, v) =
            ((settleFun name st (k, v)).1, (settleFun name st (k, v)).2) from rfl]
      rw [lookup_cons_ne _ _ hkey, ih hpend]

theorem entryStatus_settle_other (env : DeferredEnvelope) (name m : String)
    (st : Settlement) (hm : m ≠ name) :
    entryStatus (settleEntry env name st) m = entryStatus env m :=
  lookup_map_settleFun_other env.lazyEntries name m st hm

theorem entryStatus_settle_self (env : DeferredEnvelope) (name : String)
    (st : Settlement) (hpend : entryStatus env name = some EntryStatus.pending) :
    entryStatus (settleEntry env name st) name = some st.toStatus :=
  lookup_map_settleFun_self env.lazyEntries name st hpend

theorem resolveBoundary_zero_eq (chain : List Segment) :
    resolveBoundary chain 0 =
      match chain.get? 0 with
      | some s => if s.hasBoundary then some s.id else none
      | none => none := rfl

theorem resolveBoundary_succ_eq (chain : List Segment) (n : Nat) :
    resolveBoundary chain (n + 1) =
      match chain.get? (n + 1) with
      | some s => if s.hasBoundary then some s.id else resolveBoundary chain n
      | none => resolveBoundary chain n := rfl

/-- C5: the ErrorResolver attaches an error thrown at the origin
segment to the nearest segment, walking from the origin (inclusive)
toward the root of the matched chain, that declares error-boundary
capability: either some index `j ≤ origin` holds a boundary-capable
segment with no boundary-capable segment strictly between `j` and the
origin, and the resolver returns that segment's id, or no segment from
the origin down to the root declares the capability and the resolver
falls back to the implicit root boundary (`none`). -/
theorem resolveBoundary_nearest (chain : List Segment) (origin : Nat) :
    (∃ j s, j ≤ origin ∧ chain.get? j = some s ∧ s.hasBoundary = true ∧
      (∀ k s2, j < k → k ≤ origin → chain.get? k = some s2 →
        s2.hasBoundary = false) ∧
      resolveBoundary chain origin = some s.id)
    ∨ ((∀ k s2, k ≤ origin → chain.get? k = some s2 → s2.hasBoundary = false) ∧
       resolveBoundary chain origin = none) := by
  induction origin with
  | zero =>
    cases h : chain.get? 0 with
    | none =>
      right
      refine ⟨fun k s2 hk hget => ?_, ?_⟩
      · interval_cases k
        rw [h] at hget
        exact absurd hget (by simp)
      · rw [resolveBoundary_zero_eq, h]
    | some s =>
      by_cases hb : s.hasBoundary = true
      · left
        refine ⟨0, s, le_refl 0, h, hb, fun k s2 hjk hk _ => absurd hk (by omega), ?_⟩
        rw [resolveBoundary_zero_eq, h]
        simp [hb]
      · have hbf : s.hasBoundary = false := by
          revert hb
          cases s.hasBoundary <;> simp
        right
        refine ⟨fun k s2 hk hget => ?_, ?_⟩
        · interval_cases k
          rw [h] at hget
          injection hget with hget
          rw [← hget]
          exact hbf
        · rw [resolveBoundary_zero_eq, h]
          simp [hbf]
  | succ n ih =>
    cases h : chain.get? (n + 1) with
    | some s =>
      by_cases hb : s.hasBoundary = true
      · left
        refine ⟨n + 1, s, le_refl _, h, hb,
          fun k s2 hjk hk _ => absurd hk (by omega), ?_⟩
        rw [resolveBoundary_succ_eq, h]
        simp [hb]
      · have hbf : s.hasBoundary = false := by
          revert hb
          cases s.hasBoundary <;> simp
        have hstep : resolveBoundary chain (n + 1) = resolveBoundary chain n := by
          rw [resolveBoundary_succ_eq, h]
          simp [hbf]
        rcases ih with ⟨j, s', hj, hget, hb', hall, hres⟩ | ⟨hall, hres⟩
        · left
          refine ⟨j, s', by omega, hget, hb', fun k s2 hjk hk hget2 => ?_,
            hstep.trans hres⟩
          by_cases hkn : k ≤ n
          · exact hall k s2 hjk hkn hget2
          · have hkeq : k = n + 1 := by omega
            rw [hkeq, h] at hget2
            injection hget2 with hget2
            rw [← hget2]
            exact hbf
        · right
          refine ⟨fun k s2 hk hget2 => ?_, hstep.trans hres⟩
          by_cases hkn : k ≤ n
          · exact hall k s2 hkn hget2
          · have hkeq : k = n + 1 := by omega
            rw [hkeq, h] at hget2
            injection hget2 with hget2
            rw [← hget2]
            exact hbf
    | none =>
      have hstep : resolveBoundary chain (n + 1) = resolveBoundary chain n := by
        rw [resolveBoundary_succ_eq, h]
      rcases ih with ⟨j, s', hj, hget, hb', hall, hres⟩ | ⟨hall, hres⟩
      · left
        refine ⟨j, s', by omega, hget, hb', fun k s2 hjk hk hget2 => ?_,
          hstep.trans hres⟩
        by_cases hkn : k ≤ n
        · exact hall k s2 hjk hkn hget2
        · have hkeq : k = n + 1 := by omega
          rw [hkeq, h] at hget2
          exact absurd hget2 (by simp)
      · right
        refine ⟨fun k s2 hk hget2 => ?_, hstep.trans hres⟩
        by_cases hkn : k ≤ n
        · exact hall k s2 hkn hget2
        · have hkeq : k = n + 1 := by omega
          rw [hkeq, h] at hget2
          exact absurd hget2 (by simp)

theorem step_stale (s : EngineState) (e : Event) (g : Nat)
    (hg : e.genOf = some g) (hne : g ≠ s.gen) : step s e = s := by
  cases e with
  | navigate i m => simp [Event.genOf] at hg
  | actionSettled g2 r =>
    injection hg with hg
    subst hg
    simp only [step]
    rw [if_neg hne]
  | loaderSettled g2 seg r =>
    injection hg with hg
    subst hg
    simp only [step]
    rw [if_neg hne]
  | deferredSettled g2 name r =>
    injection hg with hg
    subst hg
    simp only [step]
    rw [if_neg hne]
  | fetcherActionSettled fid r => simp [Event.genOf] at hg

/-! ## The claims -/

/-- C1: for every navigation generation `g` that has been superseded
(`g < s.gen`), no `AsyncTask` settlement (action or loader) and no
`DeferredEntry` settlement belonging to `g` mutates the live
`NavigationState`, even if it settles arbitrarily late: running any
sequence of generation-`g` settlement events leaves the state exactly as
the newer generation committed it. -/
theorem stale_generation_no_mutation (s : EngineState) (g : Nat)
    (evs : List Event) (hg : g < s.gen)
    (hall : ∀ e ∈ evs, e.genOf = some g) :
    run s evs = s := by
  induction evs with
  | nil => rfl
  | cons e rest ih =>
    have h1 : step s e = s :=
      step_stale s e g (hall e (by simp)) (by omega)
    show List.foldl step (step s e) rest = s
    rw [h1]
    exact ih (fun e2 he2 => hall e2 (by simp [he2]))

/-- Witness for C1: a concrete superseding navigation followed by late
generation-0 action, loader and deferred settlements; the committed
state is untouched. -/
theorem stale_generation_no_mutation_witness :
    run (step initState (.navigate ⟨"/todos", .load⟩ [⟨0, true⟩]))
        [.loaderSettled 0 0 (.ok 5), .deferredSettled 0 "lazy1" (.ok 7),
         .actionSettled 0 (.err 3)] =
      step initState (.navigate ⟨"/todos", .load⟩ [⟨0, true⟩]) :=
  stale_generation_no_mutation
    (step initState (.navigate ⟨"/todos", .load⟩ [⟨0, true⟩])) 0
    [.loaderSettled 0 0 (.ok 5), .deferredSettled 0 "lazy1" (.ok 7),
     .actionSettled 0 (.err 3)]
    (by decide) (by decide)

/-- C2: `wrap` returns the `DeferredEnvelope` with every critical value
already populated while every lazy entry is still `pending` — the
resolver never waits for any lazy entry before returning the
envelope. -/
theorem wrap_synchronous (crit : List (String × String))
    (lazyNames : List String) :
    (wrap crit lazyNames).criticalValues = crit ∧
    ∀ p ∈ (wrap crit lazyNames).lazyEntries, p.2 = EntryStatus.pending := by
  refine ⟨rfl, fun p hp => ?_⟩
  simp only [wrap, List.mem_map] at hp
  obtain ⟨n, _, hn⟩ := hp
  rw [← hn]

/-- Witness for C2: the deferred route's envelope, with the example's
critical values in hand and its lazy entries pending. -/
theorem wrap_synchronous_witness :
    (wrap [("critical1", "Critical 1"), ("critical2", "Critical 2")]
        ["lazyResolved", "lazy1", "lazy2", "lazy3", "lazyError"]).criticalValues =
      [("critical1", "Critical 1"), ("critical2", "Critical 2")] ∧
    ("lazy1", EntryStatus.pending).2 = EntryStatus.pending :=
  ⟨(wrap_synchronous [("critical1", "Critical 1"), ("critical2", "Critical 2")]
      ["lazyResolved", "lazy1", "lazy2", "lazy3", "lazyError"]).1,
   (wrap_synchronous [("critical1", "Critical 1"), ("critical2", "Critical 2")]
      ["lazyResolved", "lazy1", "lazy2", "lazy3", "lazyError"]).2
     ("lazy1", EntryStatus.pending) (by decide)⟩

/-- C3: rejection of one lazy entry changes only that entry: the
envelope's critical values are untouched, every sibling entry keeps its
own status (resolved stays resolved, pending stays pending), and the
rejected entry itself, if still pending, becomes `rejected`. -/
theorem lazy_rejection_isolated (env : DeferredEnvelope) (name e : String) :
    (settleEntry env name (.rejectWith e)).criticalValues =
      env.criticalValues ∧
    (∀ m, m ≠ name →
      entryStatus (settleEntry env name (.rejectWith e)) m =
        entryStatus env m) ∧
    (entryStatus env name = some EntryStatus.pending →
      entryStatus (settleEntry env name (.rejectWith e)) name =
        some (EntryStatus.rejectedWith e)) := by
  refine ⟨rfl, fun m hm => entryStatus_settle_other env name m _ hm,
    fun hp => entryStatus_settle_self env name (.rejectWith e) hp⟩

/-- Witness for C3: in an envelope where `lazy1` already resolved and
`lazyError` is pending, rejecting `lazyError` leaves `lazy1` resolved
and marks only `lazyError` rejected. -/
theorem lazy_rejection_isolated_witness :
    entryStatus
        (settleEntry
          (settleEntry (wrap [("critical1", "c1")] ["lazy1", "lazyError"])
            "lazy1" (.resolveWith "Lazy 1"))
          "lazyError" (.rejectWith "Kaboom!"))
        "lazy1" =
      entryStatus
        (settleEntry (wrap [("critical1", "c1")] ["lazy1", "lazyError"])
          "lazy1" (.resolveWith "Lazy 1"))
        "lazy1" ∧
    entryStatus
        (settleEntry
          (settleEntry (wrap [("critical1", "c1")] ["lazy1", "lazyError"])
            "lazy1" (.resolveWith "Lazy 1"))
          "lazyError" (.rejectWith "Kaboom!"))
        "lazyError" =
      some (EntryStatus.rejectedWith "Kaboom!") :=
  ⟨(lazy_rejection_isolated
      (settleEntry (wrap [("critical1", "c1")] ["lazy1", "lazyError"])
        "lazy1" (.resolveWith "Lazy 1"))
      "lazyError" "Kaboom!").2.1 "lazy1" (by decide),
   (lazy_rejection_isolated
      (settleEntry (wrap [("critical1", "c1")] ["lazy1", "lazyError"])
        "lazy1" (.resolveWith "Lazy 1"))
      "lazyError" "Kaboom!").2.2 (by decide)⟩

/-- C6: for every submit-kind navigation whose action fails, no loader
runs for that navigation, the error is routed through the ErrorResolver
from the deepest matched segment, and the navigation ends with the state
back at `idle` without ever entering a `loading` phase. -/
theorem failed_action_skips_loaders (s : EngineState) (target : String)
    (matched : List Segment) (e : Nat) :
    let s1 := step s (.navigate ⟨target, .submit⟩ matched)
    let s2 := step s1 (.actionSettled s1.gen (.err e))
    s2.loaderRuns = s.loaderRuns ∧
    s2.phase = .idle ∧
    s2.phaseLog = s.phaseLog ++ [.submitting, .idle] ∧
    s2.errors = s.errors ++
      [(resolveBoundary matched (matched.length - 1), e)] := by
  simp [step]

/-- C7: an action (main navigation or fetcher) settling with a redirect
skips the implicit post-action revalidation — no loader is re-invoked
and the revalidation flag is untouched — and the redirect is emitted as
a new navigation intent instead. -/
theorem redirect_skips_revalidation (s : EngineState) (fid loc : String) :
    let sMain := step s (.actionSettled s.gen (.redirectTo loc))
    let sFetch := step s (.fetcherActionSettled fid (.redirectTo loc))
    sMain.loaderRuns = s.loaderRuns ∧
    sMain.revalidating = s.revalidating ∧
    sMain.emittedIntents = s.emittedIntents ++ [⟨loc, .load⟩] ∧
    sFetch.loaderRuns = s.loaderRuns ∧
    sFetch.revalidating = s.revalidating ∧
    sFetch.emittedIntents = s.emittedIntents ++ [⟨loc, .load⟩] := by
  simp [step]

/-- C4: after a fetcher's action settles successfully while the main
navigation is quiescent, the loaders of every currently active route
segment are re-invoked exactly once, under the lightweight
`revalidating` flag; the main navigation's phase is untouched — it
passes through neither `submitting` nor `loading` — and no new
generation starts. -/
theorem fetcher_success_revalidates_once (s : EngineState) (fid : String)
    (v : Nat) (hquiet : s.pendingLoaders = [])
    (hnodup : (s.chain.map Segment.id).Nodup) :
    let s2 := step s (.fetcherActionSettled fid (.ok v))
    s2.loaderRuns = s.loaderRuns ++ s.chain.map Segment.id ∧
    (∀ i ∈ s.chain.map Segment.id, (s.chain.map Segment.id).count i = 1) ∧
    s2.phase = s.phase ∧
    s2.phaseLog = s.phaseLog ∧
    s2.gen = s.gen ∧
    s2.revalidating = true := by
  refine ⟨?_, fun i hi => List.count_eq_one_of_mem hnodup hi, rfl, rfl, rfl, rfl⟩
  simp [step, hquiet]

/-- Witness for C4: a concrete idle state with two active segments; the
fetcher's successful deletion re-invokes both loaders once each. -/
theorem fetcher_success_revalidates_once_witness :
    (step { initState with chain := [⟨0, true⟩, ⟨1, false⟩] }
        (.fetcherActionSettled "todo-delete" (.ok 1))).loaderRuns =
      ({ initState with chain := [⟨0, true⟩, ⟨1, false⟩] } :
        EngineState).loaderRuns ++ [0, 1] ∧
    (step { initState with chain := [⟨0, true⟩, ⟨1, false⟩] }
        (.fetcherActionSettled "todo-delete" (.ok 1))).phaseLog =
      ({ initState with chain := [⟨0, true⟩, ⟨1, false⟩] } :
        EngineState).phaseLog :=
  have h := fetcher_success_revalidates_once
    { initState with chain := [⟨0, true⟩, ⟨1, false⟩] }
    "todo-delete" 1 (by decide) (by decide)
  ⟨h.1, h.2.2.2.1⟩

/-- C8: when two segments' loaders run concurrently in one navigation
and one throws while the other succeeds, the failure does not cancel the
sibling (it stays pending and its later success applies), the error is
attached at the failing segment's own boundary, and the succeeding
segment's data is readable in the same committed snapshot. -/
theorem loader_failure_isolated (s : EngineState) (target : String)
    (sA sB : Segment) (v e : Nat) (hne : sA.id ≠ sB.id) :
    let s1 := step s (.navigate ⟨target, .load⟩ [sA, sB])
    let s2 := step s1 (.loaderSettled s1.gen sB.id (.err e))
    let s3 := step s2 (.loaderSettled s2.gen sA.id (.ok v))
    s2.pendingLoaders = [sA.id] ∧
    s3.phase = NavPhase.idle ∧
    s3.location = target ∧
    s3.chain = [sA, sB] ∧
    s3.navData.lookup sA.id = some v ∧
    s3.errors = s.errors ++ [(resolveBoundary [sA, sB] 1, e)] := by
  have hBA : sB.id ≠ sA.id := fun h => hne h.symm
  have hidx : (([sA, sB].map Segment.id).indexOf sB.id) = 1 := by
    rw [List.map_cons, List.map_cons, List.map_nil,
      List.indexOf_cons_ne _ hne, List.indexOf_cons_self]
  simp [step, upsert, hne, hBA, hidx, lookup_cons_self]

/-- Witness for C8: segment 1's loader fails while segment 0's loader
succeeds; the committed snapshot holds both segment 0's data and the
error at segment 1's boundary. -/
theorem loader_failure_isolated_witness :
    let s1 := step initState
      (.navigate ⟨"/todos", .load⟩ [⟨0, true⟩, ⟨1, false⟩])
    let s2 := step s1 (.loaderSettled s1.gen (Segment.mk 1 false).id (.err 7))
    let s3 := step s2 (.loaderSettled s2.gen (Segment.mk 0 true).id (.ok 5))
    s2.pendingLoaders = [(Segment.mk 0 true).id] ∧
    s3.phase = NavPhase.idle ∧
    s3.location = "/todos" ∧
    s3.chain = [⟨0, true⟩, ⟨1, false⟩] ∧
    s3.navData.lookup (Segment.mk 0 true).id = some 5 ∧
    s3.errors = initState.errors ++
      [(resolveBoundary [⟨0, true⟩, ⟨1, false⟩] 1, 7)] :=
  loader_failure_isolated initState "/todos" ⟨0, true⟩ ⟨1, false⟩ 5 7 (by decide)

/-- C9: `todosAction` falls into three exhaustive cases: with
`action=delete` and a string `todoId` it deletes that todo and returns
the `ok` data value (no redirect, no addition); otherwise with a string
`todo` field it adds that todo and returns a 302 redirect to `/todos`;
in every remaining case it returns the same redirect and leaves the
store unchanged. -/
theorem todosAction_cases (fd : FormData) (todos : Todos) (freshId : String) :
    (∀ id, fd "action" = some (.str "delete") →
      fd "todoId" = some (.str id) →
      todosAction fd todos freshId = (deleteTodo todos id, .okTrue)) ∧
    ((fd "action" ≠ some (.str "delete") ∨
        ∀ id, fd "todoId" ≠ some (.str id)) →
      ∀ t, fd "todo" = some (.str t) →
        todosAction fd todos freshId =
          (addTodo todos freshId t, .redirectResp 302 "/todos")) ∧
    ((fd "action" ≠ some (.str "delete") ∨
        ∀ id, fd "todoId" ≠ some (.str id)) →
      (∀ t, fd "todo" ≠ some (.str t)) →
      todosAction fd todos freshId = (todos, .redirectResp 302 "/todos")) := by
  refine ⟨?_, ?_, ?_⟩
  · intro id ha hid
    simp [todosAction, ha, hid]
  · intro hcase t ht
    by_cases ha : fd "action" = some (.str "delete")
    · rcases hcase with h | h
      · exact absurd ha h
      · cases hv : fd "todoId" with
        | none => simp [todosAction, ha, hv, ht]
        | some v =>
          cases v with
          | str s => exact absurd hv (h s)
          | file => simp [todosAction, ha, hv, ht]
    · simp [todosAction, ha, ht]
  · intro hcase ht
    have hbranch :
        (match fd "todo" with
          | some (.str todo) =>
            (addTodo todos freshId todo,
              ActionResult.redirectResp 302 "/todos")
          | _ => (todos, ActionResult.redirectResp 302 "/todos")) =
          (todos, ActionResult.redirectResp 302 "/todos") := by
      cases hv : fd "todo" with
      | none => rfl
      | some v =>
        cases v with
        | str s => exact absurd hv (ht s)
        | file => rfl
    by_cases ha : fd "action" = some (.str "delete")
    · rcases hcase with h | h
      · exact absurd ha h
      · cases hv : fd "todoId" with
        | none => simp [todosAction, ha, hv, hbranch]
        | some v =>
          cases v with
          | str s => exact absurd hv (h s)
          | file => simp [todosAction, ha, hv, hbranch]
    · simp [todosAction, ha, hbranch]

/-- Witness for C9: a delete submission (`action=delete`, `todoId=a`)
deletes todo `a` and returns the `ok` data value. -/
theorem todosAction_cases_witness :
    todosAction
        (fun k => if k = "action" then some (FormValue.str "delete")
          else if k = "todoId" then some (FormValue.str "a") else none)
        [("a", "buy milk"), ("b", "do laundry")] "c" =
      (deleteTodo [("a", "buy milk"), ("b", "do laundry")] "a",
        ActionResult.okTrue) :=
  (todosAction_cases
      (fun k => if k = "action" then some (FormValue.str "delete")
        else if k = "todoId" then some (FormValue.str "a") else none)
      [("a", "buy milk"), ("b", "do laundry")] "c").1 "a"
    (by decide) (by decide)

/-- C10 counterexample: with `params.id` present but equal to the empty
string and a todo stored under the empty-string id, the claim predicts
the stored todo is returned, but `todoLoader` throws
`Expected params.id` — JavaScript truthiness treats the present empty
string like an absent id. -/
theorem todoLoader_empty_id_counterexample :
    todoLoader (some "") [("", "x")] = Except.error "Expected params.id" ∧
    todoLoader (some "") [("", "x")] ≠ Except.ok "x" := by
  constructor
  · rfl
  · intro h
    rw [show todoLoader (some "") [("", "x")] =
        Except.error "Expected params.id" from rfl] at h
    exact absurd h (by simp)

/-- C10 (amended): `todoLoader` throws `Expected params.id` exactly when
`params.id` is absent or empty (JS-falsy); it throws the message naming
the id when the todo stored under a JS-truthy id is absent or empty
(JS-falsy); and for every JS-truthy id whose stored todo is nonempty it
returns that todo's string (the store is never modified — the loader
only reads it). -/
theorem todoLoader_spec (idParam : Option String) (todos : Todos) :
    (jsTruthy idParam = false →
      todoLoader idParam todos = .error "Expected params.id") ∧
    (∀ id, idParam = some id → jsTruthy idParam = true →
      jsTruthy (todos.lookup id) = false →
      todoLoader idParam todos = .error (todoNotFoundMsg id)) ∧
    (∀ id t, idParam = some id → jsTruthy idParam = true →
      todos.lookup id = some t → t ≠ "" →
      todoLoader idParam todos = .ok t) := by
  refine ⟨?_, ?_, ?_⟩
  · intro h
    simp [todoLoader, h]
  · intro id hid htru hlook
    subst hid
    simp [todoLoader, htru, hlook]
  · intro id t hid htru hl ht
    subst hid
    have hidne : ¬ id = "" := by simpa [jsTruthy] using htru
    simp [todoLoader, jsTruthy, hidne, hl, ht]

/-- Witness for C10: a present, nonempty id with a stored todo returns
that todo. -/
theorem todoLoader_spec_witness :
    todoLoader (some "a") [("a", "buy milk")] = Except.ok "buy milk" :=
  (todoLoader_spec (some "a") [("a", "buy milk")]).2.2 "a" "buy milk"
    rfl (by decide) (by decide) (by decide)

end DataRouter
